import Mathlib

/-!
# Verification of the class-unload tracker (`src/share/back/classTrack.c`)

Shallow embedding of the Android-rewritten class tracking module of the
jdwp agent.  The module keeps a singly linked list of `KlassNode` records
(a JVMTI tag together with the class signature), a monotonically
incremented 64-bit tag counter `currentKlassTag`, and a dedicated JVMTI
tracking environment.  The public operations are
`classTrack_processUnloads`, `classTrack_addPreparedClass`,
`classTrack_initialize` (named `classTrack_init` here) and
`classTrack_reset`.

Modelling conventions:
* `jlong` values (tags, the counter) are `Nat` reduced modulo `2 ^ 64`
  (`jlongMod`) wherever the C code increments them.
* The JVMTI liveness oracle (`GetObjectsWithTags`) is an explicit
  function `oracle : Nat → Nat` giving, for each tag, the number of live
  objects currently carrying that tag.
* Process-fatal paths (`EXIT_ERROR`, the `JDI_ASSERT_FAILED` duplicate
  check, which per the spec's error model terminates rather than
  returns) are modelled as `Option.none`: the operation does not return.
  Host-call failures that are unrelated to the tracked state
  (out-of-memory, JNI errors) are outside the model; the host calls
  themselves (`classSignature`, `GetTag`, `SetTag`) are modelled by the
  `Klass` input record.
-/

/-- `2 ^ 64`: the modulus of `jlong` arithmetic (two's-complement bit
pattern of the 64-bit tag counter). -/
def jlongMod : Nat := 2 ^ 64

/-- `struct KlassNode`: the tag the klass has in the tracking env and the
class signature.  The `next` pointer of the C struct is represented by
the position in a `List`. -/
structure KlassNode where
  klass_tag : Nat
  signature : String
  deriving DecidableEq, Repr

/-- A class handle as the tracker sees it through the host: its current
tag in the tracking env (`GetTag`, 0 when untagged) and its signature
(`classSignature`). -/
structure Klass where
  currentTag : Nat
  signature : String
  deriving DecidableEq, Repr

/-- One entry of the `allLoadedClasses` enumeration: a class handle plus
its JVMTI class status flags (`classStatus`). -/
structure LoadedClass where
  klass : Klass
  status : Nat
  deriving DecidableEq, Repr

/-- The module-global state of `classTrack.c`: the head of the linked
list of prepared classes, the current highest tag number, and whether
the dedicated tracking JVMTI env is open. -/
structure TrackerState where
  list : List KlassNode
  currentKlassTag : Nat
  trackingEnv : Bool
  deriving DecidableEq, Repr

/-- `isClassUnloaded`: query `GetObjectsWithTags` for one tag.  A count
other than 0 or 1 hits `EXIT_ERROR(AGENT_ERROR_INTERNAL, ...)`, modelled
as `none`; otherwise the class is unloaded iff the count is 0. -/
def isClassUnloaded (oracle : Nat → Nat) (tag : Nat) : Option Bool :=
  let res_count := oracle tag
  if res_count != 0 && res_count != 1 then
    none
  else
    some (res_count == 0)

/-- `deleteList`: walk a linked list of nodes, moving each node's
signature into the returned bag (in list order) and deallocating the
node. -/
def deleteList : List KlassNode → List String
  | [] => []
  | node :: next => node.signature :: deleteList next

/-- The filtering loop of `classTrack_processUnloads`: walk the registry
from the head; an unloaded node is spliced out and pushed onto the
`toDeleteList` accumulator (so that accumulator ends up in reverse
traversal order), a live node stays in place.  Returns the surviving
list and the final `toDeleteList`, or `none` if `isClassUnloaded` hit
the fatal path. -/
def processUnloadsLoop (oracle : Nat → Nat) :
    List KlassNode → List KlassNode → Option (List KlassNode × List KlassNode)
  | [], toDeleteList => some ([], toDeleteList)
  | node :: rest, toDeleteList =>
    match isClassUnloaded oracle node.klass_tag with
    | none => none
    | some true => processUnloadsLoop oracle rest (node :: toDeleteList)
    | some false =>
      match processUnloadsLoop oracle rest toDeleteList with
      | none => none
      | some (kept, toDelete) => some (node :: kept, toDelete)

/-- `classTrack_processUnloads`: filter all unloaded classes out of the
registry, then return the bag of their signatures via `deleteList`.
The tag counter and the tracking env are untouched. -/
def classTrack_processUnloads (oracle : Nat → Nat) (s : TrackerState) :
    Option (List String × TrackerState) :=
  match processUnloadsLoop oracle s.list [] with
  | none => none
  | some (kept, toDeleteList) =>
    some (deleteList toDeleteList, { s with list := kept })

/-- `classTrack_addPreparedClass`: when assertions are on, a class whose
current tag in the tracking env is nonzero triggers
`JDI_ASSERT_FAILED("Attempting to insert duplicate class")` (modelled
from the spec as fatal — the macro itself lives outside `src/`, and the
spec's error model makes contract violations process-fatal).  Otherwise
allocate the node, fetch the signature, pre-increment the tag counter,
`SetTag` the class object with the new tag, and push the node onto the
head of the registry. -/
def classTrack_addPreparedClass (assertOn : Bool) (klass : Klass)
    (s : TrackerState) : Option TrackerState :=
  if assertOn && klass.currentTag != 0 then
    none
  else
    let newTag := (s.currentKlassTag + 1) % jlongMod
    some { list := ⟨newTag, klass.signature⟩ :: s.list,
           currentKlassTag := newTag,
           trackingEnv := s.trackingEnv }

/-- `JVMTI_CLASS_STATUS_PREPARED`. -/
def JVMTI_CLASS_STATUS_PREPARED : Nat := 2

/-- `JVMTI_CLASS_STATUS_ARRAY`. -/
def JVMTI_CLASS_STATUS_ARRAY : Nat := 16

/-- The `wanted` mask of `classTrack_initialize`:
`JVMTI_CLASS_STATUS_PREPARED | JVMTI_CLASS_STATUS_ARRAY`. -/
def wantedStatus : Nat :=
  Nat.lor JVMTI_CLASS_STATUS_PREPARED JVMTI_CLASS_STATUS_ARRAY

/-- The status test of `classTrack_initialize`:
`(status & wanted) != 0`. -/
def statusWanted (status : Nat) : Bool :=
  Nat.land status wantedStatus != 0

/-- The enumeration loop of `classTrack_initialize`: for each loaded
class whose status flags intersect `wanted`, call
`classTrack_addPreparedClass`. -/
def initLoop (assertOn : Bool) :
    List LoadedClass → TrackerState → Option TrackerState
  | [], s => some s
  | lc :: rest, s =>
    if statusWanted lc.status then
      match classTrack_addPreparedClass assertOn lc.klass s with
      | none => none
      | some s2 => initLoop assertOn rest s2
    else
      initLoop assertOn rest s

/-- `classTrack_initialize` (named `classTrack_init` because of naming
constraints of this development): open the dedicated tracking env, reset
`currentKlassTag` to 0 and the registry to empty, then enumerate all
loaded classes and add every prepared or array class in enumeration
order. -/
def classTrack_init (assertOn : Bool) (loaded : List LoadedClass) :
    Option TrackerState :=
  initLoop assertOn loaded
    { list := [], currentKlassTag := 0, trackingEnv := true }

/-- `classTrack_reset`: the function body in the source is empty — the
global state is left exactly as it is. -/
def classTrack_reset (s : TrackerState) : TrackerState :=
  s

/-- A lifetime event of the tracker after initialization: either a
class-prepare insertion or a processing pass with a given oracle
answer. -/
inductive TrackEvent where
  | add (klass : Klass)
  | proc (oracle : Nat → Nat)

/-- Run a sequence of tracker events from a state, collecting the list
of tags allocated by the `add` events in allocation order.  Any fatal
path aborts the whole run (`none`). -/
def runEvents (assertOn : Bool) :
    List TrackEvent → TrackerState → Option (TrackerState × List Nat)
  | [], s => some (s, [])
  | TrackEvent.add k :: rest, s =>
    match classTrack_addPreparedClass assertOn k s with
    | none => none
    | some s2 =>
      match runEvents assertOn rest s2 with
      | none => none
      | some (sf, tags) => some (sf, s2.currentKlassTag :: tags)
  | TrackEvent.proc oracle :: rest, s =>
    match classTrack_processUnloads oracle s with
    | none => none
    | some (_, s2) => runEvents assertOn rest s2

/-- Spec-side description of a run of head insertions: the nodes that a
sequence of signature insertions starting from counter value `base`
creates, in insertion order (tags `base + 1`, `base + 2`, ...). -/
def mkNodes : Nat → List String → List KlassNode
  | _, [] => []
  | base, sig :: rest => ⟨base + 1, sig⟩ :: mkNodes (base + 1) rest

/-- Concrete inputs used by the witnesses below. -/
def nodeA : KlassNode := ⟨1, "LA;"⟩

def nodeB : KlassNode := ⟨2, "LB;"⟩

def nodeC : KlassNode := ⟨3, "LC;"⟩

def stateABC : TrackerState :=
  { list := [nodeA, nodeB, nodeC], currentKlassTag := 3, trackingEnv := true }

def oracleBDead : Nat → Nat := fun t => if t = 2 then 0 else 1

def oracleAllLive : Nat → Nat := fun _ => 1

def oracleDupTag : Nat → Nat := fun t => if t = 2 then 2 else 1

def klassD : Klass := { currentTag := 0, signature := "LD;" }

def stateD : TrackerState :=
  { list := [⟨4, "LD;"⟩, nodeA, nodeB, nodeC], currentKlassTag := 4,
    trackingEnv := true }

def loadedABC : List LoadedClass :=
  [⟨⟨0, "LA;"⟩, 2⟩, ⟨⟨0, "LB;"⟩, 16⟩, ⟨⟨0, "LC;"⟩, 3⟩]

def evsW : List TrackEvent :=
  [TrackEvent.add ⟨0, "LA;"⟩, TrackEvent.add ⟨0, "LB;"⟩,
   TrackEvent.proc oracleBDead, TrackEvent.add ⟨0, "LC;"⟩]

def sfW : TrackerState :=
  { list := [⟨3, "LC;"⟩, nodeA], currentKlassTag := 3, trackingEnv := true }

/-- A valid oracle answer (count 0 or 1) makes `isClassUnloaded` return
`some`, true exactly when the count is 0. -/
theorem isClassUnloaded_of_valid (oracle : Nat → Nat) (t : Nat)
    (h : oracle t = 0 ∨ oracle t = 1) :
    isClassUnloaded oracle t = some (oracle t == 0) := by
  rcases h with h | h <;> simp [isClassUnloaded, h]

/-- An invalid oracle answer (count neither 0 nor 1) makes
`isClassUnloaded` hit the fatal path. -/
theorem isClassUnloaded_of_invalid (oracle : Nat → Nat) (t : Nat)
    (h0 : oracle t ≠ 0) (h1 : oracle t ≠ 1) :
    isClassUnloaded oracle t = none := by
  simp [isClassUnloaded, h0, h1]

/-- `deleteList` returns exactly the signatures of its nodes, in list
order. -/
theorem deleteList_eq_map (l : List KlassNode) :
    deleteList l = l.map KlassNode.signature := by
  induction l with
  | nil => rfl
  | cons node rest ih => simp [deleteList, ih]

/-- Characterization of the filtering loop under a valid oracle: the
survivors are the still-live nodes in their original order, and the
pending-deletion chain is the unloaded nodes in reverse traversal order
pushed onto the accumulator. -/
theorem processUnloadsLoop_of_valid (oracle : Nat → Nat)
    (l : List KlassNode) :
    ∀ acc, (∀ n ∈ l, oracle n.klass_tag = 0 ∨ oracle n.klass_tag = 1) →
      processUnloadsLoop oracle l acc =
        some (l.filter (fun n => oracle n.klass_tag != 0),
          (l.filter (fun n => oracle n.klass_tag == 0)).reverse ++ acc) := by
  induction l with
  | nil => intro acc _; simp [processUnloadsLoop]
  | cons node rest ih =>
    intro acc h
    have hrest : ∀ n ∈ rest, oracle n.klass_tag = 0 ∨ oracle n.klass_tag = 1 :=
      fun n hn => h n (List.mem_cons_of_mem _ hn)
    rcases h node (List.mem_cons_self _ _) with h0 | h1
    · rw [processUnloadsLoop, isClassUnloaded_of_valid oracle _ (Or.inl h0)]
      simp only [h0, beq_self_eq_true]
      rw [ih (node :: acc) hrest]
      simp [List.filter_cons, h0]
    · rw [processUnloadsLoop, isClassUnloaded_of_valid oracle _ (Or.inr h1)]
      simp only [h1]
      rw [ih acc hrest]
      simp [List.filter_cons, h1]

/-- If any node in the remaining list carries a tag with an invalid
oracle answer, the filtering loop hits the fatal path. -/
theorem processUnloadsLoop_of_invalid (oracle : Nat → Nat)
    (l : List KlassNode) :
    ∀ acc, (∃ n ∈ l, oracle n.klass_tag ≠ 0 ∧ oracle n.klass_tag ≠ 1) →
      processUnloadsLoop oracle l acc = none := by
  induction l with
  | nil => rintro acc ⟨n, hn, -⟩; cases hn
  | cons node rest ih =>
    rintro acc ⟨n, hn, hbad0, hbad1⟩
    rcases List.mem_cons.mp hn with rfl | hn'
    · rw [processUnloadsLoop, isClassUnloaded_of_invalid oracle _ hbad0 hbad1]
    · cases hic : isClassUnloaded oracle node.klass_tag with
      | none => rw [processUnloadsLoop, hic]
      | some b =>
        cases b
        · rw [processUnloadsLoop, hic, ih acc ⟨n, hn', hbad0, hbad1⟩]
        · rw [processUnloadsLoop, hic, ih (node :: acc) ⟨n, hn', hbad0, hbad1⟩]

/-- Characterization of a full processing pass under a valid oracle:
the returned bag holds the signatures of the unloaded nodes (in reverse
registry order), the registry keeps the live nodes in order, and the
tag counter and tracking env are untouched. -/
theorem classTrack_processUnloads_of_valid (oracle : Nat → Nat)
    (s : TrackerState)
    (h : ∀ n ∈ s.list, oracle n.klass_tag = 0 ∨ oracle n.klass_tag = 1) :
    classTrack_processUnloads oracle s =
      some (((s.list.filter (fun n => oracle n.klass_tag == 0)).reverse).map
              KlassNode.signature,
            { s with list := s.list.filter (fun n => oracle n.klass_tag != 0) }) := by
  rw [classTrack_processUnloads, processUnloadsLoop_of_valid oracle s.list [] h]
  simp [deleteList_eq_map]

/-- Any node surviving the filtering loop was a node of the input
list. -/
theorem processUnloadsLoop_kept_mem (oracle : Nat → Nat)
    (l : List KlassNode) :
    ∀ acc kept toDelete,
      processUnloadsLoop oracle l acc = some (kept, toDelete) →
      ∀ n ∈ kept, n ∈ l := by
  induction l with
  | nil =>
    intro acc kept toDelete h n hn
    rw [processUnloadsLoop] at h
    cases h
    cases hn
  | cons node rest ih =>
    intro acc kept toDelete h n hn
    rw [processUnloadsLoop] at h
    cases hic : isClassUnloaded oracle node.klass_tag with
    | none => rw [hic] at h; cases h
    | some b =>
      rw [hic] at h
      cases b
      · cases hrec : processUnloadsLoop oracle rest acc with
        | none => rw [hrec] at h; cases h
        | some kt =>
          rw [hrec] at h
          cases h
          rcases List.mem_cons.mp hn with rfl | hn'
          · exact List.mem_cons_self _ _
          · exact List.mem_cons_of_mem _ (ih acc kt.1 kt.2 (by rw [hrec]) n hn')
      · exact List.mem_cons_of_mem _ (ih (node :: acc) kept toDelete h n hn)

/-- A processing pass that returns leaves the tag counter and tracking
env untouched, and its surviving registry is a sub-collection of the
old one. -/
theorem classTrack_processUnloads_frame (oracle : Nat → Nat)
    (s : TrackerState) (out : List String) (s2 : TrackerState)
    (h : classTrack_processUnloads oracle s = some (out, s2)) :
    s2.currentKlassTag = s.currentKlassTag ∧ s2.trackingEnv = s.trackingEnv ∧
      ∀ n ∈ s2.list, n ∈ s.list := by
  rw [classTrack_processUnloads] at h
  cases hl : processUnloadsLoop oracle s.list [] with
  | none => rw [hl] at h; cases h
  | some kt =>
    rw [hl] at h
    cases h
    exact ⟨rfl, rfl, processUnloadsLoop_kept_mem oracle s.list [] kt.1 kt.2
      (by rw [hl])⟩

theorem mkNodes_map_tag (sigs : List String) :
    ∀ base, (mkNodes base sigs).map KlassNode.klass_tag =
      List.range' (base + 1) sigs.length := by
  induction sigs with
  | nil => intro base; rfl
  | cons sig rest ih =>
    intro base
    rw [List.length_cons, List.range'_succ]
    simp [mkNodes, ih (base + 1)]

theorem mkNodes_map_sig (sigs : List String) :
    ∀ base, (mkNodes base sigs).map KlassNode.signature = sigs := by
  induction sigs with
  | nil => intro base; rfl
  | cons sig rest ih => intro base; simp [mkNodes, ih (base + 1)]

/-- An insertion on an untagged class (current tag 0) never hits the
duplicate assertion and pushes the freshly tagged node onto the head of
the registry. -/
theorem classTrack_addPreparedClass_of_untagged (assertOn : Bool)
    (klass : Klass) (s : TrackerState) (h : klass.currentTag = 0) :
    classTrack_addPreparedClass assertOn klass s =
      some { list := ⟨(s.currentKlassTag + 1) % jlongMod, klass.signature⟩ ::
                s.list,
             currentKlassTag := (s.currentKlassTag + 1) % jlongMod,
             trackingEnv := s.trackingEnv } := by
  simp [classTrack_addPreparedClass, h]

/-- If an insertion returns at all, the state it returns is the head
push of the freshly tagged node. -/
theorem classTrack_addPreparedClass_some (assertOn : Bool) (klass : Klass)
    (s s2 : TrackerState)
    (h : classTrack_addPreparedClass assertOn klass s = some s2) :
    s2 = { list := ⟨(s.currentKlassTag + 1) % jlongMod, klass.signature⟩ ::
             s.list,
           currentKlassTag := (s.currentKlassTag + 1) % jlongMod,
           trackingEnv := s.trackingEnv } := by
  rw [classTrack_addPreparedClass] at h
  by_cases hc : (assertOn && klass.currentTag != 0) = true
  · rw [if_pos hc] at h; cases h
  · rw [if_neg hc] at h; exact (Option.some.inj h).symm

/-- Characterization of the enumeration loop when every enumerated class
is still untagged and the counter does not overflow: exactly the classes
passing the status test are inserted, in enumeration order, with
consecutive tags starting right above the current counter. -/
theorem initLoop_of_untagged (assertOn : Bool) (loaded : List LoadedClass) :
    ∀ s : TrackerState,
      (∀ lc ∈ loaded, lc.klass.currentTag = 0) →
      s.currentKlassTag +
          (loaded.filter (fun lc => statusWanted lc.status)).length <
        jlongMod →
      initLoop assertOn loaded s =
        some { list :=
                 (mkNodes s.currentKlassTag
                   ((loaded.filter (fun lc => statusWanted lc.status)).map
                     (fun lc => lc.klass.signature))).reverse ++ s.list,
               currentKlassTag := s.currentKlassTag +
                 (loaded.filter (fun lc => statusWanted lc.status)).length,
               trackingEnv := s.trackingEnv } := by
  induction loaded with
  | nil => intro s _ _; simp [initLoop, mkNodes]
  | cons lc rest ih =>
    intro s h hlen
    have hrest : ∀ x ∈ rest, x.klass.currentTag = 0 :=
      fun x hx => h x (List.mem_cons_of_mem _ hx)
    cases hw : statusWanted lc.status with
    | false =>
      rw [initLoop, if_neg (by simp [hw])]
      rw [List.filter_cons_of_neg (by simp [hw])] at hlen ⊢
      exact ih s hrest hlen
    | true =>
      rw [List.filter_cons_of_pos (by simp [hw])] at hlen ⊢
      simp only [List.length_cons] at hlen
      have hnow : s.currentKlassTag + 1 < jlongMod := by omega
      have hadd := classTrack_addPreparedClass_of_untagged assertOn lc.klass s
        (h lc (List.mem_cons_self _ _))
      rw [Nat.mod_eq_of_lt hnow] at hadd
      have hstep : initLoop assertOn (lc :: rest) s =
          initLoop assertOn rest
            { list := ⟨s.currentKlassTag + 1, lc.klass.signature⟩ :: s.list,
              currentKlassTag := s.currentKlassTag + 1,
              trackingEnv := s.trackingEnv } := by
        rw [initLoop, if_pos (by simp [hw]), hadd]
      rw [hstep, ih _ hrest (by simpa using
        (by omega : s.currentKlassTag + 1 +
          (rest.filter (fun x => statusWanted x.status)).length < jlongMod))]
      simp [mkNodes, List.append_assoc]
      omega

/-- Characterization of `classTrack_initialize` (modelled by
`classTrack_init`) when every enumerated class is untagged in the fresh
tracking env and the enumeration is not astronomically long: the
registry holds exactly the prepared-or-array classes, with consecutive
tags `1, 2, ...` in enumeration order, pushed LIFO. -/
theorem classTrack_init_of_untagged (assertOn : Bool)
    (loaded : List LoadedClass)
    (h : ∀ lc ∈ loaded, lc.klass.currentTag = 0)
    (hlen : (loaded.filter (fun lc => statusWanted lc.status)).length <
      jlongMod) :
    classTrack_init assertOn loaded =
      some { list :=
               (mkNodes 0
                 ((loaded.filter (fun lc => statusWanted lc.status)).map
                   (fun lc => lc.klass.signature))).reverse,
             currentKlassTag :=
               (loaded.filter (fun lc => statusWanted lc.status)).length,
             trackingEnv := true } := by
  rw [classTrack_init,
    initLoop_of_untagged assertOn loaded _ h (by simpa using hlen)]
  simp

/-- The allocation trace of a run of tracker events: the allocated tags
are the consecutive values right above the starting counter, and the
final counter has advanced by the number of allocations.  Requires that
the counter does not exhaust the 64-bit tag space during the run. -/
theorem runEvents_tags_spec (assertOn : Bool) (evs : List TrackEvent) :
    ∀ s sf tags, runEvents assertOn evs s = some (sf, tags) →
      s.currentKlassTag + tags.length < jlongMod →
      tags = List.range' (s.currentKlassTag + 1) tags.length ∧
        sf.currentKlassTag = s.currentKlassTag + tags.length := by
  induction evs with
  | nil =>
    intro s sf tags h _
    rw [runEvents] at h
    cases h
    simp
  | cons ev rest ih =>
    cases ev with
    | add k =>
      intro s sf tags h hlen
      rw [runEvents] at h
      cases ha : classTrack_addPreparedClass assertOn k s with
      | none => simp only [ha] at h; cases h
      | some s2 =>
        simp only [ha] at h
        cases hr : runEvents assertOn rest s2 with
        | none => simp only [hr] at h; cases h
        | some p =>
          obtain ⟨sf2, tags2⟩ := p
          simp only [hr, Option.some.injEq, Prod.mk.injEq] at h
          obtain ⟨rfl, rfl⟩ := h
          simp only [List.length_cons] at hlen
          have hnow : s.currentKlassTag + 1 < jlongMod := by omega
          have hc2 : s2.currentKlassTag = s.currentKlassTag + 1 := by
            rw [classTrack_addPreparedClass_some assertOn k s s2 ha]
            exact Nat.mod_eq_of_lt hnow
          have hih := ih s2 sf2 tags2 hr (by rw [hc2]; omega)
          rw [hc2] at hih
          refine ⟨?_, ?_⟩
          · rw [List.length_cons, List.range'_succ, hc2, ← hih.1]
          · rw [List.length_cons, hih.2]
            omega
    | proc oracle =>
      intro s sf tags h hlen
      rw [runEvents] at h
      cases hp : classTrack_processUnloads oracle s with
      | none => simp only [hp] at h; cases h
      | some q =>
        obtain ⟨out, s2⟩ := q
        simp only [hp] at h
        have hfr := classTrack_processUnloads_frame oracle s out s2 hp
        have hih := ih s2 sf tags h (by rw [hfr.1]; exact hlen)
        rw [hfr.1] at hih
        exact hih

/-- Along a run of tracker events, every registry node keeps a strictly
positive tag: insertions tag with `counter + 1 ≥ 1` and processing
passes only ever remove nodes. -/
theorem runEvents_list_tags_pos (assertOn : Bool) (evs : List TrackEvent) :
    ∀ s sf tags, runEvents assertOn evs s = some (sf, tags) →
      s.currentKlassTag + tags.length < jlongMod →
      (∀ n ∈ s.list, 1 ≤ n.klass_tag) →
      ∀ n ∈ sf.list, 1 ≤ n.klass_tag := by
  induction evs with
  | nil =>
    intro s sf tags h _ hs
    rw [runEvents] at h
    cases h
    exact hs
  | cons ev rest ih =>
    cases ev with
    | add k =>
      intro s sf tags h hlen hs
      rw [runEvents] at h
      cases ha : classTrack_addPreparedClass assertOn k s with
      | none => simp only [ha] at h; cases h
      | some s2 =>
        simp only [ha] at h
        cases hr : runEvents assertOn rest s2 with
        | none => simp only [hr] at h; cases h
        | some p =>
          obtain ⟨sf2, tags2⟩ := p
          simp only [hr, Option.some.injEq, Prod.mk.injEq] at h
          obtain ⟨rfl, rfl⟩ := h
          simp only [List.length_cons] at hlen
          have hnow : s.currentKlassTag + 1 < jlongMod := by omega
          have hs2 := classTrack_addPreparedClass_some assertOn k s s2 ha
          have hc2 : s2.currentKlassTag = s.currentKlassTag + 1 := by
            rw [hs2]
            exact Nat.mod_eq_of_lt hnow
          have hlist : ∀ n ∈ s2.list, 1 ≤ n.klass_tag := by
            rw [hs2]
            intro n hn
            rcases List.mem_cons.mp hn with rfl | hn'
            · show 1 ≤ (s.currentKlassTag + 1) % jlongMod
              rw [Nat.mod_eq_of_lt hnow]
              omega
            · exact hs n hn'
          exact ih s2 sf2 tags2 hr (by rw [hc2]; omega) hlist
    | proc oracle =>
      intro s sf tags h hlen hs
      rw [runEvents] at h
      cases hp : classTrack_processUnloads oracle s with
      | none => simp only [hp] at h; cases h
      | some q =>
        obtain ⟨out, s2⟩ := q
        simp only [hp] at h
        have hfr := classTrack_processUnloads_frame oracle s out s2 hp
        exact ih s2 sf tags h (by rw [hfr.1]; exact hlen)
          (fun n hn => hs n (hfr.2.2 n hn))

/-- C1: for every registry state and every per-tag oracle liveness
answer (live count 0 or 1 on each tracked tag), a single call to
`classTrack_processUnloads` returns a collection containing exactly the
signatures of the records whose tag the oracle reports as no longer
live, and afterwards the registry contains exactly the records reported
still live, with their relative order preserved. -/
theorem C1_processUnloads_partitions (oracle : Nat → Nat)
    (s : TrackerState)
    (h : ∀ n ∈ s.list, oracle n.klass_tag = 0 ∨ oracle n.klass_tag = 1) :
    classTrack_processUnloads oracle s =
      some ((((s.list.filter (fun n => oracle n.klass_tag == 0)).reverse).map
               KlassNode.signature),
        { s with list := s.list.filter (fun n => oracle n.klass_tag != 0) }) ∧
    ∀ sig : String,
      sig ∈ ((s.list.filter (fun n => oracle n.klass_tag == 0)).reverse).map
              KlassNode.signature ↔
        ∃ n ∈ s.list, oracle n.klass_tag = 0 ∧ n.signature = sig := by
  refine ⟨classTrack_processUnloads_of_valid oracle s h, ?_⟩
  intro sig
  simp only [List.mem_map, List.mem_reverse, List.mem_filter, beq_iff_eq]
  constructor
  · rintro ⟨n, ⟨hn, hdead⟩, hsig⟩
    exact ⟨n, hn, hdead, hsig⟩
  · rintro ⟨n, hn, hdead, hsig⟩
    exact ⟨n, ⟨hn, hdead⟩, hsig⟩

/-- Witness for C1: registry {A, B, C}, oracle reports B (tag 2) dead
and A, C live; the pass returns exactly signature(B) and keeps {A, C}
in order. -/
theorem C1_witness :
    classTrack_processUnloads oracleBDead stateABC =
      some (["LB;"],
        { list := [nodeA, nodeC], currentKlassTag := 3,
          trackingEnv := true }) :=
  ((C1_processUnloads_partitions oracleBDead stateABC (by decide)).1).trans
    (by decide)

/-- C2: over any run of tracker events started from the freshly
initialized state — insertions as performed by `classTrack_initialize`
and by class-prepare events, possibly interleaved with processing
passes — the allocated tags are strictly increasing in allocation order
and pairwise distinct, so a tag, once allocated, is never handed to a
later record even after its own record was deleted by a pass.  The
hypothesis `tags.length < jlongMod` is the source's stated assumption
that the 2^64 tag space is never exhausted. -/
theorem C2_tags_strictly_increasing (assertOn : Bool)
    (evs : List TrackEvent) (sf : TrackerState) (tags : List Nat)
    (h : runEvents assertOn evs
      { list := [], currentKlassTag := 0, trackingEnv := true } =
        some (sf, tags))
    (hlen : tags.length < jlongMod) :
    List.Pairwise (· < ·) tags ∧ tags.Nodup := by
  obtain ⟨htags, -⟩ :=
    runEvents_tags_spec assertOn evs _ sf tags h (by simpa using hlen)
  constructor
  · rw [htags]
    exact List.pairwise_lt_range' _ _
  · rw [htags]
    exact List.nodup_range' _ _

/-- Witness for C2: add A, add B, process (B dies), add C — the
allocated tags are 1, 2, 3: strictly increasing and distinct, and B's
tag 2 is not reallocated to C. -/
theorem C2_witness :
    List.Pairwise (· < ·) [1, 2, 3] ∧ List.Nodup [1, 2, 3] :=
  C2_tags_strictly_increasing true evsW sfW [1, 2, 3] (by decide) (by decide)

/-- C3: a processing pass neither leaks nor duplicates records: counted
with multiplicity, the signatures of the pre-call registry are exactly
the signatures of the post-call registry plus the returned collection —
every pre-call record is either still tracked or reported exactly once,
and nothing is reported that was not tracked. -/
theorem C3_processUnloads_conserves (oracle : Nat → Nat)
    (s : TrackerState)
    (h : ∀ n ∈ s.list, oracle n.klass_tag = 0 ∨ oracle n.klass_tag = 1) :
    ∃ out s2, classTrack_processUnloads oracle s = some (out, s2) ∧
      (↑(s.list.map KlassNode.signature) : Multiset String) =
        ↑(s2.list.map KlassNode.signature) + ↑out := by
  refine ⟨_, _, classTrack_processUnloads_of_valid oracle s h, ?_⟩
  rw [Multiset.coe_add, Multiset.coe_eq_coe, ← List.map_append]
  refine (List.Perm.map KlassNode.signature ?_).symm
  refine List.Perm.trans
    (List.Perm.append_left _ (List.reverse_perm _)) ?_
  have hp := List.filter_append_perm
    (fun n => oracle n.klass_tag == 0) s.list
  exact List.Perm.trans List.perm_append_comm hp

/-- Witness for C3 at registry {A, B, C} with B reported dead. -/
theorem C3_witness :
    ∃ out s2, classTrack_processUnloads oracleBDead stateABC =
        some (out, s2) ∧
      (↑(stateABC.list.map KlassNode.signature) : Multiset String) =
        ↑(s2.list.map KlassNode.signature) + ↑out :=
  C3_processUnloads_conserves oracleBDead stateABC (by decide)

/-- C4: if the oracle reports a live count other than 0 or 1 for some
tracked record's tag, the processing pass takes the process-fatal path
and returns no result; a count of 0 classifies a record as unloaded and
a count of 1 as still live. -/
theorem C4_excess_count_fatal (oracle : Nat → Nat) (s : TrackerState)
    (h : ∃ n ∈ s.list, oracle n.klass_tag ≠ 0 ∧ oracle n.klass_tag ≠ 1) :
    classTrack_processUnloads oracle s = none ∧
      (∀ t, oracle t = 0 → isClassUnloaded oracle t = some true) ∧
      (∀ t, oracle t = 1 → isClassUnloaded oracle t = some false) := by
  refine ⟨?_, ?_, ?_⟩
  · rw [classTrack_processUnloads,
      processUnloadsLoop_of_invalid oracle s.list [] h]
  · intro t ht
    rw [isClassUnloaded_of_valid oracle t (Or.inl ht), ht]
    rfl
  · intro t ht
    rw [isClassUnloaded_of_valid oracle t (Or.inr ht), ht]
    rfl

/-- Witness for C4: an oracle reporting two live objects for B's tag
drives the pass into the fatal path. -/
theorem C4_witness :
    classTrack_processUnloads oracleDupTag stateABC = none :=
  (C4_excess_count_fatal oracleDupTag stateABC (by decide)).1

/-- C5: if the oracle reports every tracked tag still live, the pass
returns the empty collection and the state — registry, order, tags,
signatures, counter and env — is completely unchanged.  In particular
a freshly inserted class that is reported live stays tracked and
unreported (the witness exercises exactly that scenario). -/
theorem C5_no_unloads_identity (oracle : Nat → Nat) (s : TrackerState)
    (h : ∀ n ∈ s.list, oracle n.klass_tag = 1) :
    classTrack_processUnloads oracle s = some ([], s) := by
  have hdead : s.list.filter (fun n => oracle n.klass_tag == 0) = [] :=
    List.filter_eq_nil_iff.mpr (fun n hn => by simp [h n hn])
  have hlive : s.list.filter (fun n => oracle n.klass_tag != 0) = s.list :=
    List.filter_eq_self.mpr (fun n hn => by simp [h n hn])
  rw [classTrack_processUnloads_of_valid oracle s
    (fun n hn => Or.inr (h n hn)), hdead, hlive]
  rfl

/-- Witness for C5: insert D into {A, B, C} (tag 4), then run a pass in
which the oracle reports everything (including D) live: D remains
tracked at the head and nothing is reported. -/
theorem C5_witness :
    classTrack_addPreparedClass true klassD stateABC = some stateD ∧
    classTrack_processUnloads oracleAllLive stateD = some ([], stateD) :=
  ⟨by decide, C5_no_unloads_identity oracleAllLive stateD (by decide)⟩

/-- C6: inserting a class not already tagged allocates the next tag
(counter pre-increment), fetches the class's signature, tags the object
with the new tag (the tag stored in the head record is the `SetTag`
value) and pushes the new record at the registry head, the tail being
exactly the pre-call registry — LIFO insertion. -/
theorem C6_add_pushes_head (assertOn : Bool) (klass : Klass)
    (s : TrackerState) (h : klass.currentTag = 0) :
    classTrack_addPreparedClass assertOn klass s =
      some { list := ⟨(s.currentKlassTag + 1) % jlongMod, klass.signature⟩ ::
               s.list,
             currentKlassTag := (s.currentKlassTag + 1) % jlongMod,
             trackingEnv := s.trackingEnv } :=
  classTrack_addPreparedClass_of_untagged assertOn klass s h

/-- Witness for C6: adding untagged D to {A, B, C} with counter 3 yields
tag 4 and the head push. -/
theorem C6_witness :
    classTrack_addPreparedClass true klassD stateABC = some stateD :=
  (C6_add_pushes_head true klassD stateABC (by decide)).trans (by decide)

/-- C7: initialization resets to an empty registry and zero counter,
opens the tracking env, and inserts exactly the enumerated classes whose
status flags include prepared or is-array, in enumeration order, via the
add operation — ending with the wanted classes tracked under distinct
consecutive tags. -/
theorem C7_init_tracks_prepared (assertOn : Bool)
    (loaded : List LoadedClass)
    (h : ∀ lc ∈ loaded, lc.klass.currentTag = 0)
    (hlen : (loaded.filter (fun lc => statusWanted lc.status)).length <
      jlongMod) :
    classTrack_init assertOn loaded =
      some { list :=
               (mkNodes 0
                 ((loaded.filter (fun lc => statusWanted lc.status)).map
                   (fun lc => lc.klass.signature))).reverse,
             currentKlassTag :=
               (loaded.filter (fun lc => statusWanted lc.status)).length,
             trackingEnv := true } ∧
    ((mkNodes 0
        ((loaded.filter (fun lc => statusWanted lc.status)).map
          (fun lc => lc.klass.signature))).reverse).map KlassNode.signature =
      ((loaded.filter (fun lc => statusWanted lc.status)).map
        (fun lc => lc.klass.signature)).reverse ∧
    (((mkNodes 0
        ((loaded.filter (fun lc => statusWanted lc.status)).map
          (fun lc => lc.klass.signature))).reverse).map
      KlassNode.klass_tag).Nodup := by
  refine ⟨classTrack_init_of_untagged assertOn loaded h hlen, ?_, ?_⟩
  · rw [List.map_reverse, mkNodes_map_sig]
  · rw [List.map_reverse, mkNodes_map_tag]
    exact List.nodup_reverse.mpr (List.nodup_range' _ _)

/-- Witness for C7: three loaded classes A (prepared), B (is-array),
C (verified and prepared) are all inserted, in enumeration order, with
the three distinct tags 1, 2, 3. -/
theorem C7_witness :
    classTrack_init true loadedABC =
      some { list := [⟨3, "LC;"⟩, nodeB, nodeA], currentKlassTag := 3,
             trackingEnv := true } :=
  ((C7_init_tracks_prepared true loadedABC (by decide) (by decide)).1).trans
    (by decide)

/-- C8: with assertions enabled, inserting a class already carrying a
nonzero tag in the tracking env triggers the duplicate-insertion
assertion failure (no state is returned); under the precondition that
the class's current tag is zero the assertion branch is unreachable and
the insertion proceeds normally for either assertion setting. -/
theorem C8_duplicate_assertion (klass : Klass) (s : TrackerState) :
    (klass.currentTag ≠ 0 →
      classTrack_addPreparedClass true klass s = none) ∧
    (klass.currentTag = 0 → ∀ assertOn,
      classTrack_addPreparedClass assertOn klass s =
        some { list := ⟨(s.currentKlassTag + 1) % jlongMod,
                 klass.signature⟩ :: s.list,
               currentKlassTag := (s.currentKlassTag + 1) % jlongMod,
               trackingEnv := s.trackingEnv }) := by
  constructor
  · intro hne
    simp [classTrack_addPreparedClass, hne]
  · intro h0 assertOn
    exact classTrack_addPreparedClass_of_untagged assertOn klass s h0

/-- Witness for C8: a class whose current tag is 1 hits the assertion
path when assertions are on. -/
theorem C8_witness :
    classTrack_addPreparedClass true { currentTag := 1, signature := "LX;" }
      stateABC = none :=
  (C8_duplicate_assertion { currentTag := 1, signature := "LX;" }
    stateABC).1 (by decide)

/-- C9 (code divergence): the claim — and §4.5 of the spec — require
`classTrack_reset` to release every remaining record and close the
oracle session; the source body is empty, so at a state with one
tracked record the registry still holds the record and the tracking env
is still open after the call.  (§9 of the spec flags this no-op stub as
a known gap.) -/
theorem C9_reset_is_noop :
    classTrack_reset
        { list := [nodeA], currentKlassTag := 1, trackingEnv := true } =
      { list := [nodeA], currentKlassTag := 1, trackingEnv := true } ∧
    (classTrack_reset
        { list := [nodeA], currentKlassTag := 1,
          trackingEnv := true }).list ≠ [] ∧
    (classTrack_reset
        { list := [nodeA], currentKlassTag := 1,
          trackingEnv := true }).trackingEnv = true :=
  ⟨rfl, by decide, rfl⟩

/-- C10: the tag value zero is never allocated: the counter starts at
zero on initialization and every allocation pre-increments it, so along
any run every allocated tag — and hence the tag of every tracked
record — is at least 1.  This is what makes the nonzero-tag
duplicate-insertion check a sound discriminator between tracked and
untracked classes. -/
theorem C10_tag_zero_never_allocated (assertOn : Bool)
    (evs : List TrackEvent) (sf : TrackerState) (tags : List Nat)
    (h : runEvents assertOn evs
      { list := [], currentKlassTag := 0, trackingEnv := true } =
        some (sf, tags))
    (hlen : tags.length < jlongMod) :
    (∀ t ∈ tags, 1 ≤ t) ∧ (∀ n ∈ sf.list, 1 ≤ n.klass_tag) := by
  constructor
  · obtain ⟨htags, -⟩ :=
      runEvents_tags_spec assertOn evs _ sf tags h (by simpa using hlen)
    intro t ht
    rw [htags] at ht
    exact (List.mem_range'_1.mp ht).1
  · exact runEvents_list_tags_pos assertOn evs _ sf tags h
      (by simpa using hlen) (fun n hn => absurd hn (List.not_mem_nil n))

/-- Witness for C10: in the sample run the allocated tag 2 and the
surviving record of C (tag 3) are both at least 1. -/
theorem C10_witness :
    1 ≤ (2 : Nat) ∧ 1 ≤ KlassNode.klass_tag ⟨3, "LC;"⟩ :=
  ⟨(C10_tag_zero_never_allocated true evsW sfW [1, 2, 3] (by decide)
      (by decide)).1 2 (by decide),
   (C10_tag_zero_never_allocated true evsW sfW [1, 2, 3] (by decide)
      (by decide)).2 ⟨3, "LC;"⟩ (by decide)⟩

